import Mathlib

/-!
Verification of the webitel-dc-switcher datacenter activation controller.

This file gives a shallow embedding of the service layer of the controller
(`internal/service`: `ActivateDatacenter`, `ActivateRegion`, `ListDatacenters`,
`getRegionInfo`, `PerformStartupReconciliation`, `drainMyNodes`, the heartbeat
loop) together with the repository name/region functions
(`internal/repository/nomad_client.go`), and proves the specification claims
about them.

Go machine state that the claims mention is made explicit:
- the set of Nomad clusters is a `World` (a list of `Cluster`s, each with a
  name, a region and an optional node snapshot, `none` modelling a failing
  `ListNodes`/`GetNodes` call);
- fallible external calls (`SetNodeDrain`, `WriteActiveDatacenter`,
  `ReadActiveDatacenter`, `TriggerJobEvaluations`) are driven by oracles that
  say whether a given call succeeds;
- `time.Time` values are integers, `time.Since t = now - t`;
- a successful `SetNodeDrain(cluster, node, d)` (which the Go repository issues
  with `markEligible = !d`) is taken to leave the node with `Drain = d` and
  scheduling eligibility `"eligible"` iff `!d`.
-/

namespace DCSwitcher

/-- Node mirrors `model.Node`: id, name, drain flag, scheduling eligibility
and coarse status, as filled in by `nomadRepository.ListNodes`. -/
structure Node where
  id : String
  name : String
  drain : Bool
  schedulingEligibility : String
  status : String
deriving DecidableEq

/-- ActiveDatacenter mirrors `model.ActiveDatacenter`, the record stored under
the etcd active-datacenter key. Times are integers. -/
structure ActiveDatacenter where
  datacenter : String
  activatedAt : Int
  activatedBy : String
  lastHeartbeat : Int
deriving DecidableEq

/-- HeartbeatConfig mirrors `config.HeartbeatConfig`. -/
structure HeartbeatConfig where
  updateInterval : Int
  maxFailures : Nat
  staleThreshold : Int
deriving DecidableEq

/-- A Nomad cluster as held by `nomadRepository.clusters`: unique name, region
(always set after initialization) and the current node snapshot. `nodes = none`
models a cluster whose `ListNodes` call fails. -/
structure Cluster where
  name : String
  region : String
  nodes : Option (List Node)
deriving DecidableEq

/-- The repository's cluster map (Go: `map[string]*clusterMetadata`). -/
abbrev World := List Cluster

/-- Datacenter view mirrors `model.Datacenter` (node-related fields). -/
structure Datacenter where
  name : String
  region : String
  status : String
  nodesTotal : Nat
  nodesReady : Nat
  nodesDraining : Nat
deriving DecidableEq

/-- Region view mirrors `model.Region` (node-related fields). -/
structure Region where
  name : String
  datacenters : List Datacenter
  status : String
deriving DecidableEq

/-- Entries of `ActivationResult.Errors`, tagged by which `fmt.Sprintf` built
them in `ActivateDatacenter` / `ActivateRegion`. -/
inductive ErrEntry where
  | clusterFetch (cluster : String)
  | nodeWrite (cluster node : String)
  | evalFail (dc : String)
  | etcdFail
deriving DecidableEq

/-- ActivationResult mirrors `model.ActivationResult`. -/
structure ActivationResult where
  activated : String
  drainedNodes : Nat
  unDrainedNodes : Nat
  errors : List ErrEntry
deriving DecidableEq

/-- One `SetNodeDrain` call issued during an activation, with its outcome. -/
structure WriteEvent where
  cluster : String
  node : String
  drain : Bool
  ok : Bool
deriving DecidableEq

/-! ## Repository: name and region functions (`nomad_client.go`) -/

/-- Look a cluster up by name (Go: `r.clusters[clusterName]`). -/
def findCluster (w : World) (name : String) : Option Cluster :=
  w.find? (fun c => c.name == name)

/-- `GetClusterNames`: all configured cluster names, sorted alphabetically. -/
def getClusterNames (w : World) : List String :=
  List.insertionSort (· ≤ ·) (w.map (·.name))

/-- `GetClusterRegion`: the region of a cluster, failing when unknown. -/
def getClusterRegion (w : World) (name : String) : Option String :=
  (findCluster w name).map (·.region)

/-- `GetClustersByRegion`: names of the clusters in a region, sorted. -/
def getClustersByRegion (w : World) (region : String) : List String :=
  List.insertionSort (· ≤ ·) ((w.filter (fun c => c.region == region)).map (·.name))

/-- `GetAllRegions`: the distinct regions, sorted. -/
def getAllRegions (w : World) : List String :=
  List.insertionSort (· ≤ ·) (w.map (·.region)).dedup

/-! ## Datacenter and region views (`getDatacenterInfo`, `getRegionInfo`,
`ListDatacenters`) -/

/-- Node-statistics part of `getDatacenterInfo`: a node counts as ready when it
is not draining and is eligible; draining nodes, and non-draining ineligible
nodes, count as draining; the status is `draining` when every node counts as
draining, `active` when some node is ready, `draining` otherwise. -/
def datacenterInfoOfNodes (name region : String) (nodes : List Node) : Datacenter :=
  let total := nodes.length
  let ready := nodes.countP (fun n => !n.drain && n.schedulingEligibility == "eligible")
  let draining := nodes.countP (fun n => n.drain || n.schedulingEligibility != "eligible")
  let status := if draining = total then "draining"
    else if 0 < ready then "active"
    else "draining"
  ⟨name, region, status, total, ready, draining⟩

/-- The per-cluster entry built inside `ListDatacenters`: a cluster whose node
fetch fails yields a `model.Datacenter{Name: name, Status: error}` fallback
entry (with empty region and zero counters) instead of failing the call. -/
def listEntry (w : World) (nm : String) : Datacenter :=
  match findCluster w nm with
  | none => ⟨nm, "", "error", 0, 0, 0⟩
  | some c =>
    match c.nodes with
    | none => ⟨nm, "", "error", 0, 0, 0⟩
    | some ns => datacenterInfoOfNodes nm c.region ns

/-- `ListDatacenters`: every configured cluster yields one entry; the function
always returns a `nil` error. -/
def listDatacenters (w : World) : Except String (List Datacenter) :=
  .ok ((getClusterNames w).map (listEntry w))

/-- The per-member datacenter view built inside `getRegionInfo`: on a fetch
failure the fallback entry carries the region name and status `error`. -/
def dcView (w : World) (region nm : String) : Datacenter :=
  match findCluster w nm with
  | none => ⟨nm, region, "error", 0, 0, 0⟩
  | some c =>
    match c.nodes with
    | none => ⟨nm, region, "error", 0, 0, 0⟩
    | some ns => datacenterInfoOfNodes nm c.region ns

/-- `getRegionInfo`: member views plus the aggregated region status
(`error` when some member errored, else `draining` when the draining count
equals the member count, else `partial` when both active and draining members
exist, else `active`). -/
def getRegionInfo (w : World) (region : String) : Region :=
  let names := getClustersByRegion w region
  let dcs := names.map (dcView w region)
  let activeCount := dcs.countP (fun dc => dc.status == "active")
  let drainingCount := dcs.countP (fun dc => dc.status == "draining")
  let errorCount := dcs.countP (fun dc => dc.status == "error")
  let status := if 0 < errorCount then "error"
    else if drainingCount = names.length then "draining"
    else if 0 < activeCount ∧ 0 < drainingCount then "partial"
    else "active"
  ⟨region, dcs, status⟩

/-! ## Activation engine (`ActivateDatacenter`, `ActivateRegion`) -/

/-- Go: `alreadyCorrect := (node.Drain == shouldDrain) && (nodeIsEligible ==
shouldBeEligible)` with `shouldBeEligible = !shouldDrain`. -/
def alreadyCorrect (shouldDrain : Bool) (n : Node) : Bool :=
  (n.drain == shouldDrain) && ((n.schedulingEligibility == "eligible") == !shouldDrain)

/-- Effect of a successful `SetNodeDrain(_, _, d)` on the node: the repository
issues the update with `markEligible = !d`. -/
def applyWrite (d : Bool) (n : Node) : Node :=
  { n with drain := d, schedulingEligibility := if d then "ineligible" else "eligible" }

/-- Outcome of processing the node list of one cluster. -/
structure NodesOutcome where
  nodes : List Node
  events : List WriteEvent
  drained : Nat
  unDrained : Nat
  errors : List ErrEntry
deriving DecidableEq

/-- The per-node phase of an activation for a single cluster: already-correct
nodes are skipped (the Go code records them as `nodeResult{nodeID: "",
success: true}`); otherwise `SetNodeDrain` is attempted, a success bumping the
counter picked by `shouldDrain` (Go counts only `success && nodeID != ""`), a
failure appending a `"cluster <C>, node <id>: <err>"` error entry. -/
def processNodes (writeOk : String → String → Bool) (clusterName : String)
    (shouldDrain : Bool) : List Node → NodesOutcome
  | [] => ⟨[], [], 0, 0, []⟩
  | n :: rest =>
    let o := processNodes writeOk clusterName shouldDrain rest
    if alreadyCorrect shouldDrain n then
      ⟨n :: o.nodes, o.events, o.drained, o.unDrained, o.errors⟩
    else if writeOk clusterName n.id then
      ⟨applyWrite shouldDrain n :: o.nodes,
       ⟨clusterName, n.id, shouldDrain, true⟩ :: o.events,
       (if shouldDrain && n.id != "" then o.drained + 1 else o.drained),
       (if !shouldDrain && n.id != "" then o.unDrained + 1 else o.unDrained),
       o.errors⟩
    else
      ⟨n :: o.nodes,
       ⟨clusterName, n.id, shouldDrain, false⟩ :: o.events,
       o.drained, o.unDrained,
       .nodeWrite clusterName n.id :: o.errors⟩

/-- Outcome of processing one cluster during an activation. -/
structure ClusterOutcome where
  cluster : Cluster
  events : List WriteEvent
  drained : Nat
  unDrained : Nat
  errors : List ErrEntry
deriving DecidableEq

/-- `ActivateDatacenter`'s treatment of one cluster: a cluster in the target's
region other than the target itself is skipped with its state preserved; a
cluster whose node fetch fails contributes a fetch error entry; otherwise its
nodes are driven towards `shouldDrain = (C != target)`. -/
def processClusterDC (writeOk : String → String → Bool) (target targetRegion : String)
    (c : Cluster) : ClusterOutcome :=
  if c.region == targetRegion && c.name != target then ⟨c, [], 0, 0, []⟩
  else
    match c.nodes with
    | none => ⟨c, [], 0, 0, [.clusterFetch c.name]⟩
    | some ns =>
      let o := processNodes writeOk c.name (c.name != target) ns
      ⟨{ c with nodes := some o.nodes }, o.events, o.drained, o.unDrained, o.errors⟩

/-- The clusters of the world in the order the activation loops visit them
(Go iterates `GetClusterNames()`, which is sorted). -/
def activationClusters (w : World) : List Cluster :=
  (getClusterNames w).filterMap (findCluster w)

/-- Result of a whole activation: the `ActivationResult`, the new cluster
states, the `SetNodeDrain` calls issued, and the datacenter value of the
`WriteActiveDatacenter` call made at the end. -/
structure ActivateOutcome where
  result : ActivationResult
  world : World
  events : List WriteEvent
  wroteActive : Option String
deriving DecidableEq

/-- Body of `ActivateDatacenter` once the target's region has been resolved:
process every cluster, aggregate counters / errors / events, append a job-eval
error when nodes were un-drained and `TriggerJobEvaluations` fails, and append
an etcd error when the final `WriteActiveDatacenter` fails. -/
def activateDCCore (writeOk : String → String → Bool) (evalOk etcdOk : Bool)
    (w : World) (target targetRegion : String) : ActivateOutcome :=
  let outs := (activationClusters w).map (processClusterDC writeOk target targetRegion)
  let events := (outs.map (·.events)).flatten
  let drained := (outs.map (·.drained)).sum
  let unDrained := (outs.map (·.unDrained)).sum
  let errs0 := (outs.map (·.errors)).flatten
  let errs1 := if 0 < unDrained then
      (if evalOk then errs0 else errs0 ++ [.evalFail target])
    else errs0
  let errs2 := if etcdOk then errs1 else errs1 ++ [.etcdFail]
  { result := ⟨target, drained, unDrained, errs2⟩,
    world := w.map (fun c => (processClusterDC writeOk target targetRegion c).cluster),
    events := events,
    wroteActive := some target }

/-- `ActivateDatacenter`: fails only when the target's region cannot be
resolved. -/
def activateDatacenter (writeOk : String → String → Bool) (evalOk etcdOk : Bool)
    (w : World) (target : String) : Except String ActivateOutcome :=
  match getClusterRegion w target with
  | none => .error ("target datacenter " ++ target ++ " not found")
  | some targetRegion => .ok (activateDCCore writeOk evalOk etcdOk w target targetRegion)

/-- `ActivateRegion`'s treatment of one cluster: no same-region skip; nodes are
driven towards `shouldDrain = (region(C) != targetRegion)`. -/
def processClusterRegion (writeOk : String → String → Bool) (targetRegion : String)
    (c : Cluster) : ClusterOutcome :=
  match c.nodes with
  | none => ⟨c, [], 0, 0, [.clusterFetch c.name]⟩
  | some ns =>
    let o := processNodes writeOk c.name (c.region != targetRegion) ns
    ⟨{ c with nodes := some o.nodes }, o.events, o.drained, o.unDrained, o.errors⟩

/-- `ActivateRegion`: fails when the region has no clusters; otherwise
processes every cluster, triggers evaluations on the region's clusters when
nodes were un-drained, and records the first (sorted) cluster of the region as
the active datacenter in etcd. -/
def activateRegion (writeOk : String → String → Bool) (evalOk : String → Bool)
    (etcdOk : Bool) (w : World) (targetRegion : String) : Except String ActivateOutcome :=
  match getClustersByRegion w targetRegion with
  | [] => .error ("region " ++ targetRegion ++ " not found or has no datacenters")
  | first :: rest =>
    let outs := (activationClusters w).map (processClusterRegion writeOk targetRegion)
    let events := (outs.map (·.events)).flatten
    let drained := (outs.map (·.drained)).sum
    let unDrained := (outs.map (·.unDrained)).sum
    let errs0 := (outs.map (·.errors)).flatten
    let errs1 := if 0 < unDrained then
        errs0 ++ ((first :: rest).filter (fun dc => !evalOk dc)).map ErrEntry.evalFail
      else errs0
    let errs2 := if etcdOk then errs1 else errs1 ++ [.etcdFail]
    .ok { result := ⟨targetRegion, drained, unDrained, errs2⟩,
          world := w.map (fun c => (processClusterRegion writeOk targetRegion c).cluster),
          events := events,
          wroteActive := some first }

/-! ## Startup reconciliation (`PerformStartupReconciliation`, `drainMyNodes`) -/

/-- Outcome of a `drainMyNodes` run: the node ids for which `SetNodeDrain` was
called, the resulting node states and whether the run returned without error. -/
structure DrainRun where
  requested : List String
  nodes : List Node
  ok : Bool
deriving DecidableEq

/-- `drainMyNodes`: walk the local datacenter's nodes in order; skip nodes that
are already draining or not eligible; drain the rest, stopping at the first
`SetNodeDrain` failure (the Go loop returns the wrapped error immediately). -/
def drainMyNodesRun (drainOk : String → Bool) : List Node → DrainRun
  | [] => ⟨[], [], true⟩
  | n :: rest =>
    if n.drain || n.schedulingEligibility != "eligible" then
      let o := drainMyNodesRun drainOk rest
      ⟨o.requested, n :: o.nodes, o.ok⟩
    else if drainOk n.id then
      let o := drainMyNodesRun drainOk rest
      ⟨n.id :: o.requested, applyWrite true n :: o.nodes, o.ok⟩
    else ⟨[n.id], n :: rest, false⟩

/-- Environment of one `PerformStartupReconciliation` call: the etcd read
result (`none` = read error / not found), the current time, the local
datacenter's node snapshot and the per-node `SetNodeDrain` success oracle. -/
structure ReconInput where
  readResult : Option ActiveDatacenter
  now : Int
  myNodes : List Node
  drainOk : String → Bool

/-- Observable outcome of `PerformStartupReconciliation`: the final `amDrained`
flag, whether a non-nil error was returned, whether a `WriteActiveDatacenter`
call was made, the node ids drained and the final local node states. -/
structure ReconOutcome where
  amDrained : Bool
  isError : Bool
  wroteActive : Bool
  drainRequested : List String
  myNodes : List Node

/-- `PerformStartupReconciliation`: read the active-datacenter record; on a
read failure, or when another datacenter is recorded, or when the record is
ours but stale (`age > stale_threshold`), drain and mark drained returning
`nil`; when the record is ours with a fresh heartbeat (`age <
stale_threshold`), drain, mark drained and return a hard error (split-brain
guard); otherwise (age exactly equal to the threshold) resume as active. A
`drainMyNodes` failure returns its error without setting `amDrained`. The
function never writes the active-datacenter key. -/
def performStartupReconciliation (staleThreshold : Int) (myDC : String)
    (amDrained0 : Bool) (inp : ReconInput) : ReconOutcome :=
  match inp.readResult with
  | none =>
    let d := drainMyNodesRun inp.drainOk inp.myNodes
    if d.ok then ⟨true, false, false, d.requested, d.nodes⟩
    else ⟨amDrained0, true, false, d.requested, d.nodes⟩
  | some info =>
    if info.datacenter ≠ myDC then
      let d := drainMyNodesRun inp.drainOk inp.myNodes
      if d.ok then ⟨true, false, false, d.requested, d.nodes⟩
      else ⟨amDrained0, true, false, d.requested, d.nodes⟩
    else if staleThreshold < inp.now - info.lastHeartbeat then
      let d := drainMyNodesRun inp.drainOk inp.myNodes
      if d.ok then ⟨true, false, false, d.requested, d.nodes⟩
      else ⟨amDrained0, true, false, d.requested, d.nodes⟩
    else if inp.now - info.lastHeartbeat < staleThreshold then
      let d := drainMyNodesRun inp.drainOk inp.myNodes
      if d.ok then ⟨true, true, false, d.requested, d.nodes⟩
      else ⟨amDrained0, true, false, d.requested, d.nodes⟩
    else ⟨false, false, false, [], inp.myNodes⟩

/-! ## Heartbeat loop (`heartbeatLoop`) -/

/-- Loop-carried state of `heartbeatLoop`: the `amDrained` flag and the
`consecutiveFailures` counter. -/
structure HBState where
  amDrained : Bool
  consecutiveFailures : Nat
deriving DecidableEq

/-- Environment of one heartbeat tick: the etcd read result (`none` = read
error), whether the `WriteActiveDatacenter` call would succeed, whether a
`drainMyNodes` call would succeed, and the current time. -/
structure TickInput where
  readResult : Option ActiveDatacenter
  writeOk : Bool
  drainOk : Bool
  now : Int
deriving DecidableEq

/-- Observable outcome of one heartbeat tick. -/
structure TickOutcome where
  state : HBState
  wroteHeartbeat : Bool
  drainRequested : Bool
deriving DecidableEq

/-- One iteration of the `ticker.C` branch of `heartbeatLoop`:
read failure → bump the failure counter and continue (no drain, no write);
another datacenter active → drain if not yet drained, reset the counter;
own record with a fresh heartbeat while drained → do nothing;
otherwise attempt the heartbeat write, resetting the counter on success and on
failure bumping it, draining once it reaches `max_failures` while not yet
drained. -/
def heartbeatTick (cfg : HeartbeatConfig) (myDC : String) (st : HBState)
    (inp : TickInput) : TickOutcome :=
  match inp.readResult with
  | none => ⟨⟨st.amDrained, st.consecutiveFailures + 1⟩, false, false⟩
  | some info =>
    if info.datacenter ≠ myDC then
      if st.amDrained then ⟨⟨st.amDrained, 0⟩, false, false⟩
      else ⟨⟨inp.drainOk, 0⟩, false, true⟩
    else if inp.now - info.lastHeartbeat < cfg.staleThreshold ∧ st.amDrained then
      ⟨st, false, false⟩
    else if inp.writeOk then ⟨⟨st.amDrained, 0⟩, true, false⟩
    else if cfg.maxFailures ≤ st.consecutiveFailures + 1 ∧ st.amDrained = false then
      ⟨⟨inp.drainOk, st.consecutiveFailures + 1⟩, true, true⟩
    else ⟨⟨st.amDrained, st.consecutiveFailures + 1⟩, true, false⟩

/-- Run the heartbeat loop over a list of tick environments. -/
def runTicks (cfg : HeartbeatConfig) (myDC : String) (st : HBState) :
    List TickInput → HBState
  | [] => st
  | inp :: rest => runTicks cfg myDC (heartbeatTick cfg myDC st inp).state rest

/-! ## Lemmas about `drainMyNodes` -/

/-- On a successful `drainMyNodes` run, every ready node (not draining and
eligible) had `SetNodeDrain` called on it. -/
theorem drainMyNodesRun_ok_requested (drainOk : String → Bool) :
    ∀ ns : List Node, (drainMyNodesRun drainOk ns).ok = true →
      ∀ n ∈ ns, n.drain = false → n.schedulingEligibility = "eligible" →
        n.id ∈ (drainMyNodesRun drainOk ns).requested := by
  intro ns
  induction ns with
  | nil => simp
  | cons m rest ih =>
    intro hok n hn hd he
    rcases List.mem_cons.mp hn with rfl | hmem
    · have hskip : (n.drain || n.schedulingEligibility != "eligible") = false := by
        simp [hd, he]
      rw [drainMyNodesRun, hskip] at hok ⊢
      simp only [Bool.false_eq_true, if_false]
      by_cases hw : drainOk n.id = true
      · simp [hw]
      · simp only [Bool.not_eq_true] at hw
        simp [hw] at hok
    · rw [drainMyNodesRun] at hok ⊢
      by_cases hskip : (m.drain || m.schedulingEligibility != "eligible") = true
      · simp only [hskip, if_true] at hok ⊢
        exact ih hok n hmem hd he
      · simp only [Bool.not_eq_true] at hskip
        simp only [hskip, Bool.false_eq_true, if_false] at hok ⊢
        by_cases hw : drainOk m.id = true
        · simp only [hw, if_true] at hok ⊢
          exact List.mem_cons_of_mem _ (ih hok n hmem hd he)
        · simp only [Bool.not_eq_true] at hw
          simp [hw] at hok

/-! ## Claim C1 -/

/-- Claim C1: when the startup reconciliation reads the active-datacenter
record successfully, the record names the local datacenter, and the heartbeat
age is below the stale threshold, then (provided the drain of the local nodes
succeeds) the local ready nodes are drained, `amDrained` is set, a hard error
is returned, and no write is made to the active-datacenter key. -/
theorem startupReconciliation_freshPeer_guard
    (staleThreshold : Int) (myDC : String) (amDrained0 : Bool)
    (inp : ReconInput) (info : ActiveDatacenter)
    (h1 : inp.readResult = some info)
    (h2 : info.datacenter = myDC)
    (h3 : inp.now - info.lastHeartbeat < staleThreshold)
    (h4 : (drainMyNodesRun inp.drainOk inp.myNodes).ok = true) :
    (performStartupReconciliation staleThreshold myDC amDrained0 inp).amDrained = true ∧
    (performStartupReconciliation staleThreshold myDC amDrained0 inp).isError = true ∧
    (performStartupReconciliation staleThreshold myDC amDrained0 inp).wroteActive = false ∧
    ∀ n ∈ inp.myNodes, n.drain = false → n.schedulingEligibility = "eligible" →
      n.id ∈ (performStartupReconciliation staleThreshold myDC amDrained0 inp).drainRequested := by
  have hstale : ¬ staleThreshold < inp.now - info.lastHeartbeat := by omega
  simp only [performStartupReconciliation, h1, h2, ne_eq, not_true_eq_false, if_false,
    hstale, h3, if_true, h4]
  exact ⟨trivial, trivial, trivial, drainMyNodesRun_ok_requested inp.drainOk inp.myNodes h4⟩

/-- Concrete startup environment: our own record with a 10-tick-old heartbeat,
one ready local node, all drain calls succeeding. -/
def reconFreshPeerInput : ReconInput :=
  ⟨some ⟨"dc1", 0, "api", 100⟩, 110, [⟨"n1", "node1", false, "eligible", "ready"⟩], fun _ => true⟩

/-- Witness for C1 at a concrete input. -/
theorem startupReconciliation_freshPeer_guard_witness :
    (performStartupReconciliation 120 "dc1" false reconFreshPeerInput).amDrained = true ∧
    (performStartupReconciliation 120 "dc1" false reconFreshPeerInput).isError = true ∧
    (performStartupReconciliation 120 "dc1" false reconFreshPeerInput).wroteActive = false ∧
    ∀ n ∈ reconFreshPeerInput.myNodes, n.drain = false →
      n.schedulingEligibility = "eligible" →
      n.id ∈ (performStartupReconciliation 120 "dc1" false reconFreshPeerInput).drainRequested :=
  startupReconciliation_freshPeer_guard 120 "dc1" false reconFreshPeerInput
    ⟨"dc1", 0, "api", 100⟩ rfl rfl (by decide) (by decide)

/-! ## Claim C8 -/

/-- Startup environment refuting C8 as stated: the record is absent and the
only local node is ineligible (`drain = false`, eligibility `"ineligible"`). -/
def reconIneligibleInput : ReconInput :=
  ⟨none, 0, [⟨"n1", "node1", false, "ineligible", "ready"⟩], fun _ => true⟩

/-- Claim C8 counterexample: in the not-found case, the ineligible local node
receives no drain request and keeps `drain = false` (only ready nodes are
drained), refuting "every node of M is requested to move to drain = true",
although the state is marked drained. -/
theorem startupReconciliation_drainAll_cex :
    (performStartupReconciliation 120 "dc1" false reconIneligibleInput).amDrained = true ∧
    (performStartupReconciliation 120 "dc1" false reconIneligibleInput).drainRequested = [] ∧
    ((performStartupReconciliation 120 "dc1" false reconIneligibleInput).myNodes.map
      (fun n => n.drain)) = [false] ∧
    ¬ (∀ n ∈ reconIneligibleInput.myNodes,
        n.id ∈ (performStartupReconciliation 120 "dc1" false reconIneligibleInput).drainRequested) := by
  decide

/-- Claim C8 as amended: in the not-found case and in the
other-datacenter-active case, every READY node of the local datacenter (not
draining and eligible) is requested to move to `drain = true` — nodes already
draining or ineligible are skipped — and when the drain succeeds the local
state is marked drained with no error. -/
theorem startupReconciliation_drainReady
    (staleThreshold : Int) (myDC : String) (amDrained0 : Bool) (inp : ReconInput)
    (h1 : inp.readResult = none ∨
      ∃ info, inp.readResult = some info ∧ info.datacenter ≠ myDC)
    (h2 : (drainMyNodesRun inp.drainOk inp.myNodes).ok = true) :
    (performStartupReconciliation staleThreshold myDC amDrained0 inp).amDrained = true ∧
    (performStartupReconciliation staleThreshold myDC amDrained0 inp).isError = false ∧
    ∀ n ∈ inp.myNodes, n.drain = false → n.schedulingEligibility = "eligible" →
      n.id ∈ (performStartupReconciliation staleThreshold myDC amDrained0 inp).drainRequested := by
  rcases h1 with h1 | ⟨info, h1, hne⟩
  · simp only [performStartupReconciliation, h1, h2, if_true]
    exact ⟨trivial, trivial, drainMyNodesRun_ok_requested inp.drainOk inp.myNodes h2⟩
  · simp only [performStartupReconciliation, h1, hne, ne_eq, not_false_eq_true, if_true, h2]
    exact ⟨trivial, trivial, drainMyNodesRun_ok_requested inp.drainOk inp.myNodes h2⟩

/-! ## Lemmas about the heartbeat loop -/

/-- The heartbeat loop never clears `amDrained`: only `ActivateDatacenter` /
`ActivateRegion` do. -/
theorem heartbeatTick_amDrained_mono (cfg : HeartbeatConfig) (myDC : String)
    (st : HBState) (inp : TickInput) (h : st.amDrained = true) :
    (heartbeatTick cfg myDC st inp).state.amDrained = true := by
  rw [heartbeatTick]
  match hread : inp.readResult with
  | none => simpa using h
  | some info =>
    by_cases h1 : info.datacenter ≠ myDC
    · simp [h1, h]
    · by_cases h2 : inp.now - info.lastHeartbeat < cfg.staleThreshold ∧ st.amDrained
      · simp [h1, h2, h]
      · by_cases h3 : inp.writeOk
        · by_cases h5 : inp.now - info.lastHeartbeat < cfg.staleThreshold <;>
            simp [h1, h2, h3, h5, h]
        · by_cases h4 : cfg.maxFailures ≤ st.consecutiveFailures + 1 ∧ st.amDrained = false
          · rw [h] at h4
            simp at h4
          · by_cases h5 : inp.now - info.lastHeartbeat < cfg.staleThreshold <;>
              simp [h1, h2, h3, h4, h5, h]

/-- `runTicks` preserves `amDrained = true`. -/
theorem runTicks_amDrained_mono (cfg : HeartbeatConfig) (myDC : String) :
    ∀ (l : List TickInput) (st : HBState), st.amDrained = true →
      (runTicks cfg myDC st l).amDrained = true := by
  intro l
  induction l with
  | nil => intro st h; simpa [runTicks] using h
  | cons inp rest ih =>
    intro st h
    rw [runTicks]
    exact ih _ (heartbeatTick_amDrained_mono cfg myDC st inp h)

/-- Running the loop from an undrained state over ticks that all read the own
record back but fail the heartbeat write (with drains succeeding) ends drained
as soon as the accumulated failure count passes `max_failures`. -/
theorem runTicks_writeFailures_drain (cfg : HeartbeatConfig) (myDC : String) :
    ∀ (l : List TickInput) (c : Nat),
      (∀ i ∈ l, (∃ info, i.readResult = some info ∧ info.datacenter = myDC) ∧
        i.writeOk = false ∧ i.drainOk = true) →
      cfg.maxFailures ≤ c + l.length → l ≠ [] →
      (runTicks cfg myDC ⟨false, c⟩ l).amDrained = true := by
  intro l
  induction l with
  | nil => intro c _ _ hne; exact absurd rfl hne
  | cons inp rest ih =>
    intro c hall hlen _
    obtain ⟨⟨info, hread, hdc⟩, hwok, hdok⟩ := hall inp (List.mem_cons_self inp rest)
    rw [runTicks]
    by_cases hm : cfg.maxFailures ≤ c + 1
    · have hstep : (heartbeatTick cfg myDC ⟨false, c⟩ inp).state = ⟨true, c + 1⟩ := by
        simp [heartbeatTick, hread, hdc, hwok, hdok, hm]
      rw [hstep]
      exact runTicks_amDrained_mono cfg myDC rest ⟨true, c + 1⟩ rfl
    · have hstep : (heartbeatTick cfg myDC ⟨false, c⟩ inp).state = ⟨false, c + 1⟩ := by
        simp [heartbeatTick, hread, hdc, hwok, hdok, hm]
      rw [hstep]
      have hne : rest ≠ [] := by
        intro h
        subst h
        simp only [List.length_cons, List.length_nil] at hlen
        omega
      refine ih (c + 1) (fun i hi => hall i (List.mem_cons_of_mem _ hi)) ?_ hne
      simp only [List.length_cons] at hlen
      omega

/-! ## Claim C2 -/

/-- A heartbeat configuration with `max_failures = 3`. -/
def hbCfg3 : HeartbeatConfig := ⟨30, 3, 120⟩

/-- A tick whose etcd read fails. -/
def tickReadFail : TickInput := ⟨none, false, true, 0⟩

/-- Claim C2 counterexample: starting undrained, `max_failures = 3`
consecutive `ReadActiveDatacenter` failures bring the consecutive-failure
counter to `max_failures` yet leave the instance undrained — read failures
alone never trigger the self-drain. -/
theorem heartbeat_readFailures_cex :
    (runTicks hbCfg3 "dc1" ⟨false, 0⟩ [tickReadFail, tickReadFail, tickReadFail]).consecutiveFailures
      = hbCfg3.maxFailures ∧
    (runTicks hbCfg3 "dc1" ⟨false, 0⟩ [tickReadFail, tickReadFail, tickReadFail]).amDrained
      = false := by
  decide

/-- Claim C2 as amended: a tick whose `ReadActiveDatacenter` call fails only
increments the consecutive-failure counter — it issues no drain and no write
and leaves `amDrained` unchanged; moreover a drain is only ever issued on a
tick whose read succeeded (the self-drain fires on the write-failure path, not
the read-failure path). -/
theorem heartbeat_readFailure_noDrain (cfg : HeartbeatConfig) (myDC : String)
    (st : HBState) (inp : TickInput) (h : inp.readResult = none) :
    heartbeatTick cfg myDC st inp =
      ⟨⟨st.amDrained, st.consecutiveFailures + 1⟩, false, false⟩ ∧
    ∀ (st2 : HBState) (inp2 : TickInput),
      (heartbeatTick cfg myDC st2 inp2).drainRequested = true → inp2.readResult ≠ none := by
  constructor
  · simp [heartbeatTick, h]
  · intro st2 inp2 hd hnone
    simp [heartbeatTick, hnone] at hd

/-- Witness for the amended C2 at a concrete input. -/
theorem heartbeat_readFailure_noDrain_witness :
    heartbeatTick hbCfg3 "dc1" ⟨false, 2⟩ tickReadFail = ⟨⟨false, 3⟩, false, false⟩ ∧
    ∀ (st2 : HBState) (inp2 : TickInput),
      (heartbeatTick hbCfg3 "dc1" st2 inp2).drainRequested = true →
        inp2.readResult ≠ none :=
  heartbeat_readFailure_noDrain hbCfg3 "dc1" ⟨false, 2⟩ tickReadFail rfl

/-! ## Claim C3 -/

/-- Claim C3: starting undrained with a zero failure counter,
`max_failures`-many consecutive ticks that each read the own record back but
fail the `WriteActiveDatacenter` call (drains succeeding) leave the instance
drained; and on any tick whatsoever a `WriteActiveDatacenter` call is issued
only when that tick's `ReadActiveDatacenter` succeeded and returned a record
naming the local datacenter. -/
theorem heartbeat_quorumLoss_fencing (cfg : HeartbeatConfig) (myDC : String)
    (l : List TickInput)
    (h1 : ∀ i ∈ l, (∃ info, i.readResult = some info ∧ info.datacenter = myDC) ∧
      i.writeOk = false ∧ i.drainOk = true)
    (h2 : l.length = cfg.maxFailures) (h3 : 0 < cfg.maxFailures) :
    (runTicks cfg myDC ⟨false, 0⟩ l).amDrained = true ∧
    ∀ (st : HBState) (inp : TickInput),
      (heartbeatTick cfg myDC st inp).wroteHeartbeat = true →
      ∃ info, inp.readResult = some info ∧ info.datacenter = myDC := by
  constructor
  · refine runTicks_writeFailures_drain cfg myDC l 0 h1 (by omega) ?_
    intro h
    rw [h] at h2
    simp only [List.length_nil] at h2
    omega
  · intro st inp hw
    match hread : inp.readResult with
    | none => simp [heartbeatTick, hread] at hw
    | some info =>
      refine ⟨info, rfl, ?_⟩
      by_contra hne
      cases hst : st.amDrained <;> simp [heartbeatTick, hread, hne, hst] at hw

/-- A tick that reads the own record back but fails the write. -/
def tickWriteFail : TickInput := ⟨some ⟨"dc1", 0, "api", 0⟩, false, true, 1000⟩

/-- Witness for C3 at a concrete input. -/
theorem heartbeat_quorumLoss_fencing_witness :
    (runTicks hbCfg3 "dc1" ⟨false, 0⟩ [tickWriteFail, tickWriteFail, tickWriteFail]).amDrained
      = true ∧
    ∀ (st : HBState) (inp : TickInput),
      (heartbeatTick hbCfg3 "dc1" st inp).wroteHeartbeat = true →
      ∃ info, inp.readResult = some info ∧ info.datacenter = "dc1" :=
  heartbeat_quorumLoss_fencing hbCfg3 "dc1" [tickWriteFail, tickWriteFail, tickWriteFail]
    (by
      intro i hi
      simp only [List.mem_cons, List.not_mem_nil, or_false] at hi
      rcases hi with rfl | rfl | rfl <;>
        exact ⟨⟨⟨"dc1", 0, "api", 0⟩, rfl, rfl⟩, rfl, rfl⟩)
    rfl (by decide)

/-- Startup environment for the C8 witness: no record in etcd, one ready node. -/
def reconNotFoundInput : ReconInput :=
  ⟨none, 0, [⟨"n1", "node1", false, "eligible", "ready"⟩], fun _ => true⟩

/-- Witness for the amended C8 at a concrete input. -/
theorem startupReconciliation_drainReady_witness :
    (performStartupReconciliation 120 "dc1" false reconNotFoundInput).amDrained = true ∧
    (performStartupReconciliation 120 "dc1" false reconNotFoundInput).isError = false ∧
    ∀ n ∈ reconNotFoundInput.myNodes, n.drain = false →
      n.schedulingEligibility = "eligible" →
      n.id ∈ (performStartupReconciliation 120 "dc1" false reconNotFoundInput).drainRequested :=
  startupReconciliation_drainReady 120 "dc1" false reconNotFoundInput (Or.inl rfl) (by decide)

/-! ## Lemmas about datacenter and region statuses -/

/-- `getDatacenterInfo` only ever computes the statuses `draining` and
`active`. -/
theorem datacenterInfoOfNodes_status (name region : String) (ns : List Node) :
    (datacenterInfoOfNodes name region ns).status = "draining" ∨
    (datacenterInfoOfNodes name region ns).status = "active" := by
  unfold datacenterInfoOfNodes
  dsimp only
  split_ifs <;> simp

/-- A member view's status is one of `active`, `draining`, `error`. -/
theorem dcView_status_cases (w : World) (region nm : String) :
    (dcView w region nm).status = "active" ∨ (dcView w region nm).status = "draining" ∨
    (dcView w region nm).status = "error" := by
  unfold dcView
  rcases hfc : findCluster w nm with _ | c
  · exact Or.inr (Or.inr rfl)
  · obtain ⟨cn, cr, cns⟩ := c
    rcases cns with _ | ns
    · exact Or.inr (Or.inr rfl)
    · rcases datacenterInfoOfNodes_status nm cr ns with h | h
      · exact Or.inr (Or.inl h)
      · exact Or.inl h

/-- The three status counts of a member list partition its length. -/
theorem countP_status_partition (dcs : List Datacenter)
    (h : ∀ dc ∈ dcs, dc.status = "active" ∨ dc.status = "draining" ∨ dc.status = "error") :
    dcs.countP (fun dc => dc.status == "active") +
      dcs.countP (fun dc => dc.status == "draining") +
      dcs.countP (fun dc => dc.status == "error") = dcs.length := by
  induction dcs with
  | nil => simp
  | cons d rest ih =>
    have hd := h d (List.mem_cons_self d rest)
    have hr := ih (fun x hx => h x (List.mem_cons_of_mem _ hx))
    rcases hd with h1 | h1 | h1 <;> simp [List.countP_cons, h1] <;> omega

/-- Characterization of the region status computed by `getRegionInfo`, for an
arbitrary member list satisfying the status trichotomy. -/
theorem regionStatusAux (dcs : List Datacenter) (n : Nat) (status : String)
    (hn : dcs.length = n) (hpos : 0 < n)
    (htri : ∀ dc ∈ dcs,
      dc.status = "active" ∨ dc.status = "draining" ∨ dc.status = "error")
    (hst : status = (if 0 < dcs.countP (fun dc => dc.status == "error") then "error"
      else if dcs.countP (fun dc => dc.status == "draining") = n then "draining"
      else if 0 < dcs.countP (fun dc => dc.status == "active") ∧
          0 < dcs.countP (fun dc => dc.status == "draining") then "partial"
      else "active")) :
    (status = "error" ↔ ∃ dc ∈ dcs, dc.status = "error") ∧
    (status = "draining" ↔ ∀ dc ∈ dcs, dc.status = "draining") ∧
    (status = "partial" ↔
      ((∃ dc ∈ dcs, dc.status = "active") ∧ (∃ dc ∈ dcs, dc.status = "draining") ∧
        ∀ dc ∈ dcs, dc.status ≠ "error")) ∧
    (status = "active" ↔ ∀ dc ∈ dcs, dc.status = "active") := by
  subst hst
  have hex_err : 0 < dcs.countP (fun dc => dc.status == "error") ↔
      ∃ dc ∈ dcs, dc.status = "error" := by
    rw [List.countP_pos_iff]
    simp
  have hex_act : 0 < dcs.countP (fun dc => dc.status == "active") ↔
      ∃ dc ∈ dcs, dc.status = "active" := by
    rw [List.countP_pos_iff]
    simp
  have hex_drain : 0 < dcs.countP (fun dc => dc.status == "draining") ↔
      ∃ dc ∈ dcs, dc.status = "draining" := by
    rw [List.countP_pos_iff]
    simp
  have hall_drain : dcs.countP (fun dc => dc.status == "draining") = dcs.length ↔
      ∀ dc ∈ dcs, dc.status = "draining" := by
    rw [List.countP_eq_length]
    simp
  have hall_act : dcs.countP (fun dc => dc.status == "active") = dcs.length ↔
      ∀ dc ∈ dcs, dc.status = "active" := by
    rw [List.countP_eq_length]
    simp
  have hsum := countP_status_partition dcs htri
  have hnen : dcs ≠ [] := by
    intro h
    rw [h] at hn
    simp only [List.length_nil] at hn
    omega
  by_cases hE : 0 < dcs.countP (fun dc => dc.status == "error")
  · rw [if_pos hE]
    refine ⟨iff_of_true rfl (hex_err.mp hE), ?_, ?_, ?_⟩
    · apply iff_of_false (by decide)
      intro hall
      obtain ⟨d, hd, hderr⟩ := hex_err.mp hE
      rw [hall d hd] at hderr
      exact absurd hderr (by decide)
    · apply iff_of_false (by decide)
      rintro ⟨-, -, hnoerr⟩
      obtain ⟨d, hd, hderr⟩ := hex_err.mp hE
      exact hnoerr d hd hderr
    · apply iff_of_false (by decide)
      intro hall
      obtain ⟨d, hd, hderr⟩ := hex_err.mp hE
      rw [hall d hd] at hderr
      exact absurd hderr (by decide)
  · rw [if_neg hE]
    by_cases hD : dcs.countP (fun dc => dc.status == "draining") = n
    · rw [if_pos hD]
      have hallD : ∀ dc ∈ dcs, dc.status = "draining" := by
        apply hall_drain.mp
        rw [hn]
        exact hD
      refine ⟨?_, iff_of_true rfl hallD, ?_, ?_⟩
      · apply iff_of_false (by decide)
        rintro ⟨d, hd, hderr⟩
        rw [hallD d hd] at hderr
        exact absurd hderr (by decide)
      · apply iff_of_false (by decide)
        rintro ⟨⟨d, hd, hdact⟩, -, -⟩
        rw [hallD d hd] at hdact
        exact absurd hdact (by decide)
      · apply iff_of_false (by decide)
        intro hall
        obtain ⟨d, hd⟩ := List.exists_mem_of_ne_nil dcs hnen
        have h1 := hall d hd
        have h2 := hallD d hd
        rw [h1] at h2
        exact absurd h2 (by decide)
    · rw [if_neg hD]
      have hnoerr : ∀ dc ∈ dcs, dc.status ≠ "error" := by
        intro d hd hderr
        exact hE (hex_err.mpr ⟨d, hd, hderr⟩)
      by_cases hAD : 0 < dcs.countP (fun dc => dc.status == "active") ∧
          0 < dcs.countP (fun dc => dc.status == "draining")
      · rw [if_pos hAD]
        refine ⟨?_, ?_, iff_of_true rfl ⟨hex_act.mp hAD.1, hex_drain.mp hAD.2, hnoerr⟩, ?_⟩
        · apply iff_of_false (by decide)
          rintro ⟨d, hd, hderr⟩
          exact hnoerr d hd hderr
        · apply iff_of_false (by decide)
          intro hall
          apply hD
          rw [← hn]
          exact hall_drain.mpr hall
        · apply iff_of_false (by decide)
          intro hall
          obtain ⟨d, hd, hddr⟩ := hex_drain.mp hAD.2
          rw [hall d hd] at hddr
          exact absurd hddr (by decide)
      · rw [if_neg hAD]
        have hallA : ∀ dc ∈ dcs, dc.status = "active" := by
          by_cases hDz : 0 < dcs.countP (fun dc => dc.status == "draining")
          · exfalso
            have hAz : dcs.countP (fun dc => dc.status == "active") = 0 := by
              by_contra hc
              exact hAD ⟨Nat.pos_of_ne_zero hc, hDz⟩
            apply hD
            rw [← hn]
            omega
          · apply hall_act.mp
            omega
        refine ⟨?_, ?_, ?_, iff_of_true rfl hallA⟩
        · apply iff_of_false (by decide)
          rintro ⟨d, hd, hderr⟩
          exact hnoerr d hd hderr
        · apply iff_of_false (by decide)
          intro hall
          apply hD
          rw [← hn]
          exact hall_drain.mpr hall
        · apply iff_of_false (by decide)
          rintro ⟨-, ⟨d, hd, hddr⟩, -⟩
          rw [hallA d hd] at hddr
          exact absurd hddr (by decide)

/-! ## Claim C7 -/

/-- Claim C7 counterexample: for a region with no member datacenters (reachable
through `GetRegionDatacenters` on an unknown region name) the status is
`draining`, while "all member datacenters are active" holds vacuously — the
claimed `active`-iff fails. -/
theorem regionStatus_cex :
    (getRegionInfo [⟨"dc1", "r1", some [⟨"n1", "n1", false, "eligible", "ready"⟩]⟩] "r2").status
      = "draining" ∧
    ¬ (((getRegionInfo [⟨"dc1", "r1", some [⟨"n1", "n1", false, "eligible", "ready"⟩]⟩]
          "r2").status = "active") ↔
        ∀ dc ∈ (getRegionInfo [⟨"dc1", "r1", some [⟨"n1", "n1", false, "eligible", "ready"⟩]⟩]
          "r2").datacenters, dc.status = "active") := by
  decide

/-- Claim C7 as amended: for every region view with at least one member
datacenter, the status is `error` iff some member is `error`; `draining` iff
all members are `draining`; `partial` iff both active and draining members
appear and none is `error`; and `active` iff all members are `active`
(`error` taking precedence, then `draining`, then `partial`). A region with no
members gets status `draining`. -/
theorem regionStatus_spec (w : World) (r : String)
    (hne : getClustersByRegion w r ≠ []) :
    ((getRegionInfo w r).status = "error" ↔
      ∃ dc ∈ (getRegionInfo w r).datacenters, dc.status = "error") ∧
    ((getRegionInfo w r).status = "draining" ↔
      ∀ dc ∈ (getRegionInfo w r).datacenters, dc.status = "draining") ∧
    ((getRegionInfo w r).status = "partial" ↔
      ((∃ dc ∈ (getRegionInfo w r).datacenters, dc.status = "active") ∧
        (∃ dc ∈ (getRegionInfo w r).datacenters, dc.status = "draining") ∧
        ∀ dc ∈ (getRegionInfo w r).datacenters, dc.status ≠ "error")) ∧
    ((getRegionInfo w r).status = "active" ↔
      ∀ dc ∈ (getRegionInfo w r).datacenters, dc.status = "active") := by
  have htri : ∀ dc ∈ (getClustersByRegion w r).map (dcView w r),
      dc.status = "active" ∨ dc.status = "draining" ∨ dc.status = "error" := by
    intro dc hdc
    obtain ⟨nm, _, rfl⟩ := List.mem_map.mp hdc
    exact dcView_status_cases w r nm
  exact regionStatusAux ((getClustersByRegion w r).map (dcView w r))
    (getClustersByRegion w r).length (getRegionInfo w r).status
    (List.length_map _ _) (List.length_pos.mpr hne) htri rfl

/-- A one-cluster world used by several witnesses. -/
def wOne : World := [⟨"dc1", "r1", some [⟨"n1", "n1", false, "eligible", "ready"⟩]⟩]

/-- Witness for the amended C7 at a concrete region. -/
theorem regionStatus_spec_witness :
    ((getRegionInfo wOne "r1").status = "error" ↔
      ∃ dc ∈ (getRegionInfo wOne "r1").datacenters, dc.status = "error") ∧
    ((getRegionInfo wOne "r1").status = "draining" ↔
      ∀ dc ∈ (getRegionInfo wOne "r1").datacenters, dc.status = "draining") ∧
    ((getRegionInfo wOne "r1").status = "partial" ↔
      ((∃ dc ∈ (getRegionInfo wOne "r1").datacenters, dc.status = "active") ∧
        (∃ dc ∈ (getRegionInfo wOne "r1").datacenters, dc.status = "draining") ∧
        ∀ dc ∈ (getRegionInfo wOne "r1").datacenters, dc.status ≠ "error")) ∧
    ((getRegionInfo wOne "r1").status = "active" ↔
      ∀ dc ∈ (getRegionInfo wOne "r1").datacenters, dc.status = "active") :=
  regionStatus_spec wOne "r1" (by decide)

/-! ## Claim C9 -/

/-- A `ListDatacenters` entry is named after its cluster. -/
theorem listEntry_name (w : World) (nm : String) : (listEntry w nm).name = nm := by
  unfold listEntry
  rcases hfc : findCluster w nm with _ | c
  · rfl
  · obtain ⟨cn, cr, cns⟩ := c
    rcases cns with _ | ns <;> rfl

/-- A cluster whose node fetch fails yields an `error`-status entry. -/
theorem listEntry_error (w : World) (nm : String) (c : Cluster)
    (h1 : findCluster w nm = some c) (h2 : c.nodes = none) :
    (listEntry w nm).status = "error" := by
  obtain ⟨cn, cr, cns⟩ := c
  dsimp only at h2
  subst h2
  unfold listEntry
  rw [h1]

/-- Claim C9: `ListDatacenters` never returns an error; it returns exactly one
entry per configured cluster name (in sorted order), and a cluster whose node
fetch fails appears as an entry with status `error` instead of failing the
call. -/
theorem listDatacenters_entry_per_cluster (w : World) :
    ∃ l, listDatacenters w = .ok l ∧
      l.map (fun d => d.name) = getClusterNames w ∧
      ∀ d ∈ l, ∀ c, findCluster w d.name = some c → c.nodes = none →
        d.status = "error" := by
  refine ⟨(getClusterNames w).map (listEntry w), rfl, ?_, ?_⟩
  · rw [List.map_map]
    have hcongr : ∀ nm ∈ getClusterNames w,
        ((fun d => d.name) ∘ listEntry w) nm = id nm := by
      intro nm _
      exact listEntry_name w nm
    rw [List.map_congr_left hcongr, List.map_id]
  · intro d hd c h1 h2
    obtain ⟨nm, hnm, rfl⟩ := List.mem_map.mp hd
    rw [listEntry_name] at h1
    exact listEntry_error w nm c h1 h2

/-- Witness for C9 at a concrete world. -/
theorem listDatacenters_entry_per_cluster_witness :
    ∃ l, listDatacenters wOne = .ok l ∧
      l.map (fun d => d.name) = getClusterNames wOne ∧
      ∀ d ∈ l, ∀ c, findCluster wOne d.name = some c → c.nodes = none →
        d.status = "error" :=
  listDatacenters_entry_per_cluster wOne

/-! ## Claim C10 -/

/-- Claim C10: `GetClusterNames`, `GetClustersByRegion` and `GetAllRegions`
return sorted name lists, and the "first cluster of the region" that
`ActivateRegion` records as the active datacenter in the coordination store is
the lexicographically smallest cluster name in the target region. -/
theorem sortedNames_regionFirst_smallest (w : World) (r : String)
    (wk : String → String → Bool) (evalOk : String → Bool) (etcdOk : Bool)
    (hne : getClustersByRegion w r ≠ []) :
    List.Sorted (· ≤ ·) (getClusterNames w) ∧
    List.Sorted (· ≤ ·) (getClustersByRegion w r) ∧
    List.Sorted (· ≤ ·) (getAllRegions w) ∧
    ∃ first out, activateRegion wk evalOk etcdOk w r = .ok out ∧
      out.wroteActive = some first ∧
      (∃ c ∈ w, c.name = first ∧ c.region = r) ∧
      ∀ c ∈ w, c.region = r → first ≤ c.name := by
  refine ⟨List.sorted_insertionSort _ _, List.sorted_insertionSort _ _,
    List.sorted_insertionSort _ _, ?_⟩
  rcases hl : getClustersByRegion w r with _ | ⟨first, rest⟩
  · exact absurd hl hne
  · have hout : ∃ out, activateRegion wk evalOk etcdOk w r = .ok out ∧
        out.wroteActive = some first := by
      rw [activateRegion, hl]
      exact ⟨_, rfl, rfl⟩
    obtain ⟨out, hrun, hwa⟩ := hout
    have hperm : List.Perm (getClustersByRegion w r)
        ((w.filter (fun c => c.region == r)).map (fun c => c.name)) :=
      List.perm_insertionSort _ _
    have hmemfirst : first ∈ (w.filter (fun c => c.region == r)).map (fun c => c.name) :=
      hperm.subset (by rw [hl]; exact List.mem_cons_self first rest)
    obtain ⟨c0, hc0f, hc0n⟩ := List.mem_map.mp hmemfirst
    have hc0 := List.mem_filter.mp hc0f
    refine ⟨first, out, hrun, hwa,
      ⟨c0, hc0.1, hc0n, by simpa using hc0.2⟩, ?_⟩
    intro c hc hcr
    have hcm : c.name ∈ getClustersByRegion w r := by
      apply hperm.mem_iff.mpr
      exact List.mem_map.mpr ⟨c, List.mem_filter.mpr ⟨hc, by simp [hcr]⟩, rfl⟩
    have hsorted : List.Sorted (· ≤ ·) (getClustersByRegion w r) :=
      List.sorted_insertionSort _ _
    rw [hl] at hcm hsorted
    rcases List.mem_cons.mp hcm with h | h
    · rw [h]
    · exact (List.sorted_cons.mp hsorted).1 _ h

/-- Witness for C10 at a concrete world. -/
theorem sortedNames_regionFirst_smallest_witness :
    List.Sorted (· ≤ ·) (getClusterNames wOne) ∧
    List.Sorted (· ≤ ·) (getClustersByRegion wOne "r1") ∧
    List.Sorted (· ≤ ·) (getAllRegions wOne) ∧
    ∃ first out,
      activateRegion (fun _ _ => true) (fun _ => true) true wOne "r1" = .ok out ∧
      out.wroteActive = some first ∧
      (∃ c ∈ wOne, c.name = first ∧ c.region = "r1") ∧
      ∀ c ∈ wOne, c.region = "r1" → first ≤ c.name :=
  sortedNames_regionFirst_smallest wOne "r1" (fun _ _ => true) (fun _ => true) true
    (by decide)

/-! ## Per-node lemmas about the activation engine -/

/-- Recognize the per-node-write entries of `ActivationResult.Errors`. -/
def isNodeWriteErr : ErrEntry → Bool
  | .nodeWrite _ _ => true
  | _ => false

/-- A node that a successful `SetNodeDrain` has just updated is in the desired
state. -/
theorem alreadyCorrect_applyWrite (sd : Bool) (n : Node) :
    alreadyCorrect sd (applyWrite sd n) = true := by
  cases sd <;> simp [alreadyCorrect, applyWrite]

/-- Every `SetNodeDrain` event of a node-processing run carries the cluster
name, the cluster's drain direction and the oracle's verdict, and belongs to a
node of the snapshot that was not already in the desired state. -/
theorem processNodes_event_spec (wk : String → String → Bool) (cn : String) (sd : Bool) :
    ∀ ns : List Node, ∀ e ∈ (processNodes wk cn sd ns).events,
      e.cluster = cn ∧ e.drain = sd ∧ e.ok = wk cn e.node ∧
      ∃ n ∈ ns, n.id = e.node ∧ alreadyCorrect sd n = false := by
  intro ns
  induction ns with
  | nil => simp [processNodes]
  | cons n rest ih =>
    intro e he
    rw [processNodes] at he
    by_cases hac : alreadyCorrect sd n = true
    · simp only [hac, if_true] at he
      obtain ⟨h1, h2, h3, m, hm, h4⟩ := ih e he
      exact ⟨h1, h2, h3, m, List.mem_cons_of_mem _ hm, h4⟩
    · have hac' : alreadyCorrect sd n = false := by
        simp only [Bool.not_eq_true] at hac
        exact hac
      simp only [hac', Bool.false_eq_true, if_false] at he
      by_cases hw : wk cn n.id = true
      · simp only [hw, if_true, List.mem_cons] at he
        rcases he with rfl | he
        · exact ⟨rfl, rfl, by simp [hw], n, List.mem_cons_self n rest, rfl, hac'⟩
        · obtain ⟨h1, h2, h3, m, hm, h4⟩ := ih e he
          exact ⟨h1, h2, h3, m, List.mem_cons_of_mem _ hm, h4⟩
      · have hw' : wk cn n.id = false := by
          simp only [Bool.not_eq_true] at hw
          exact hw
        simp only [hw', Bool.false_eq_true, if_false, List.mem_cons] at he
        rcases he with rfl | he
        · exact ⟨rfl, rfl, by simp [hw'], n, List.mem_cons_self n rest, rfl, hac'⟩
        · obtain ⟨h1, h2, h3, m, hm, h4⟩ := ih e he
          exact ⟨h1, h2, h3, m, List.mem_cons_of_mem _ hm, h4⟩

/-- With nonempty node ids, the two counters of a node-processing run count
exactly the successful drain / un-drain events. -/
theorem processNodes_counts (wk : String → String → Bool) (cn : String) (sd : Bool) :
    ∀ ns : List Node, (∀ n ∈ ns, n.id ≠ "") →
      (processNodes wk cn sd ns).drained =
        ((processNodes wk cn sd ns).events.filter (fun e => e.ok && e.drain)).length ∧
      (processNodes wk cn sd ns).unDrained =
        ((processNodes wk cn sd ns).events.filter (fun e => e.ok && !e.drain)).length := by
  intro ns
  induction ns with
  | nil => simp [processNodes]
  | cons n rest ih =>
    intro hid
    have hidn : n.id ≠ "" := hid n (List.mem_cons_self n rest)
    have hidn' : (n.id != "") = true := by simpa using hidn
    obtain ⟨ihd, ihu⟩ := ih (fun m hm => hid m (List.mem_cons_of_mem _ hm))
    rw [processNodes]
    by_cases hac : alreadyCorrect sd n = true
    · simpa [hac] using ⟨ihd, ihu⟩
    · have hac' : alreadyCorrect sd n = false := by
        simp only [Bool.not_eq_true] at hac
        exact hac
      by_cases hw : wk cn n.id = true
      · cases sd <;>
          simp [hac', hw, hidn', List.filter_cons, ihd, ihu]
      · have hw' : wk cn n.id = false := by
          simp only [Bool.not_eq_true] at hw
          exact hw
        simp [hac', hw', List.filter_cons, ihd, ihu]

/-- The per-node error entries of a node-processing run are exactly the failed
events, in order. -/
theorem processNodes_errors (wk : String → String → Bool) (cn : String) (sd : Bool) :
    ∀ ns : List Node,
      (processNodes wk cn sd ns).errors =
        ((processNodes wk cn sd ns).events.filter (fun e => !e.ok)).map
          (fun e => ErrEntry.nodeWrite e.cluster e.node) := by
  intro ns
  induction ns with
  | nil => simp [processNodes]
  | cons n rest ih =>
    rw [processNodes]
    by_cases hac : alreadyCorrect sd n = true
    · simpa [hac] using ih
    · have hac' : alreadyCorrect sd n = false := by
        simp only [Bool.not_eq_true] at hac
        exact hac
      by_cases hw : wk cn n.id = true
      · simpa [hac', hw, List.filter_cons] using ih
      · have hw' : wk cn n.id = false := by
          simp only [Bool.not_eq_true] at hw
          exact hw
        simpa [hac', hw', List.filter_cons] using ih

/-- Processing a snapshot whose nodes are all already in the desired state
changes nothing and produces no events, counters or errors. -/
theorem processNodes_allCorrect (wk : String → String → Bool) (cn : String) (sd : Bool) :
    ∀ ns : List Node, (∀ n ∈ ns, alreadyCorrect sd n = true) →
      processNodes wk cn sd ns = ⟨ns, [], 0, 0, []⟩ := by
  intro ns
  induction ns with
  | nil => simp [processNodes]
  | cons n rest ih =>
    intro hall
    rw [processNodes, ih (fun m hm => hall m (List.mem_cons_of_mem _ hm))]
    simp [hall n (List.mem_cons_self n rest)]

/-- If every event of a node-processing run succeeded, the resulting snapshot
is entirely in the desired state. -/
theorem processNodes_correct_of_ok (wk : String → String → Bool) (cn : String) (sd : Bool) :
    ∀ ns : List Node,
      (∀ e ∈ (processNodes wk cn sd ns).events, e.ok = true) →
      ∀ n ∈ (processNodes wk cn sd ns).nodes, alreadyCorrect sd n = true := by
  intro ns
  induction ns with
  | nil => simp [processNodes]
  | cons n rest ih =>
    intro hok m hm
    rw [processNodes] at hok hm
    by_cases hac : alreadyCorrect sd n = true
    · simp only [hac, if_true] at hok hm
      rcases List.mem_cons.mp hm with rfl | hm'
      · exact hac
      · exact ih hok m hm'
    · have hac' : alreadyCorrect sd n = false := by
        simp only [Bool.not_eq_true] at hac
        exact hac
      by_cases hw : wk cn n.id = true
      · simp only [hac', Bool.false_eq_true, if_false, hw, if_true] at hok hm
        rcases List.mem_cons.mp hm with rfl | hm'
        · exact alreadyCorrect_applyWrite sd n
        · exact ih (fun e he => hok e (List.mem_cons_of_mem _ he)) m hm'
      · have hw' : wk cn n.id = false := by
          simp only [Bool.not_eq_true] at hw
          exact hw
        simp only [hac', Bool.false_eq_true, if_false, hw', if_true] at hok hm
        have := hok ⟨cn, n.id, sd, false⟩ (List.mem_cons_self _ _)
        simp at this

/-- Re-processing the snapshot a run produced leaves it unchanged (the second
pass skips corrected nodes and fails the same writes again). -/
theorem processNodes_nodes_fixpoint (wk : String → String → Bool) (cn : String) (sd : Bool) :
    ∀ ns : List Node,
      (processNodes wk cn sd (processNodes wk cn sd ns).nodes).nodes =
        (processNodes wk cn sd ns).nodes := by
  intro ns
  induction ns with
  | nil => simp [processNodes]
  | cons n rest ih =>
    rw [processNodes]
    by_cases hac : alreadyCorrect sd n = true
    · simp only [hac, if_true]
      rw [processNodes, if_pos hac, ih]
    · have hac' : alreadyCorrect sd n = false := by
        simp only [Bool.not_eq_true] at hac
        exact hac
      by_cases hw : wk cn n.id = true
      · simp only [hac', Bool.false_eq_true, if_false, hw, if_true]
        rw [processNodes, if_pos (alreadyCorrect_applyWrite sd n), ih]
      · have hw' : wk cn n.id = false := by
          simp only [Bool.not_eq_true] at hw
          exact hw
        simp only [hac', Bool.false_eq_true, if_false, hw', if_true]
        rw [processNodes, hac', hw']
        simp [ih]

/-! ## Per-cluster lemmas about `ActivateDatacenter` -/

/-- Processing a cluster changes only its node snapshot. -/
theorem processClusterDC_name_region (wk : String → String → Bool) (t tr : String)
    (c : Cluster) :
    (processClusterDC wk t tr c).cluster.name = c.name ∧
    (processClusterDC wk t tr c).cluster.region = c.region := by
  obtain ⟨cn, cr, cns⟩ := c
  by_cases hskip : (cr == tr && cn != t) = true
  · have h1 : processClusterDC wk t tr ⟨cn, cr, cns⟩ = ⟨⟨cn, cr, cns⟩, [], 0, 0, []⟩ := by
      rw [processClusterDC, if_pos hskip]
    simp [h1]
  · rcases cns with _ | ns
    · have h1 : processClusterDC wk t tr ⟨cn, cr, none⟩ =
          ⟨⟨cn, cr, none⟩, [], 0, 0, [.clusterFetch cn]⟩ := by
        rw [processClusterDC, if_neg hskip]
      simp [h1]
    · have h1 : processClusterDC wk t tr ⟨cn, cr, some ns⟩ =
          ⟨⟨cn, cr, some (processNodes wk cn (cn != t) ns).nodes⟩,
            (processNodes wk cn (cn != t) ns).events,
            (processNodes wk cn (cn != t) ns).drained,
            (processNodes wk cn (cn != t) ns).unDrained,
            (processNodes wk cn (cn != t) ns).errors⟩ := by
        rw [processClusterDC, if_neg hskip]
      simp [h1]

/-- A same-region sibling of the target is skipped outright: state preserved,
no events, no counters, no errors. -/
theorem processClusterDC_skip (wk : String → String → Bool) (t tr : String)
    (c : Cluster) (h1 : c.region = tr) (h2 : c.name ≠ t) :
    processClusterDC wk t tr c = ⟨c, [], 0, 0, []⟩ := by
  rw [processClusterDC, if_pos (by simp [h1, h2])]

/-- Every `SetNodeDrain` event of a cluster's processing carries the cluster's
name and drain direction, reflects the oracle, only arises for a non-skipped
cluster, and belongs to a fetched node not already in the desired state. -/
theorem processClusterDC_event_spec (wk : String → String → Bool) (t tr : String)
    (c : Cluster) :
    ∀ e ∈ (processClusterDC wk t tr c).events,
      e.cluster = c.name ∧ e.drain = (c.name != t) ∧ e.ok = wk c.name e.node ∧
      (c.region = tr → c.name = t) ∧
      ∃ ns, c.nodes = some ns ∧ ∃ n ∈ ns, n.id = e.node ∧
        alreadyCorrect (c.name != t) n = false := by
  obtain ⟨cn, cr, cns⟩ := c
  intro e he
  by_cases hskip : (cr == tr && cn != t) = true
  · have h1 : processClusterDC wk t tr ⟨cn, cr, cns⟩ = ⟨⟨cn, cr, cns⟩, [], 0, 0, []⟩ := by
      rw [processClusterDC, if_pos hskip]
    rw [h1] at he
    simp at he
  · rcases cns with _ | ns
    · have h1 : processClusterDC wk t tr ⟨cn, cr, none⟩ =
          ⟨⟨cn, cr, none⟩, [], 0, 0, [.clusterFetch cn]⟩ := by
        rw [processClusterDC, if_neg hskip]
      rw [h1] at he
      simp at he
    · have h1 : processClusterDC wk t tr ⟨cn, cr, some ns⟩ =
          ⟨⟨cn, cr, some (processNodes wk cn (cn != t) ns).nodes⟩,
            (processNodes wk cn (cn != t) ns).events,
            (processNodes wk cn (cn != t) ns).drained,
            (processNodes wk cn (cn != t) ns).unDrained,
            (processNodes wk cn (cn != t) ns).errors⟩ := by
        rw [processClusterDC, if_neg hskip]
      rw [h1] at he
      obtain ⟨h2, h3, h4, n, hn, h5⟩ := processNodes_event_spec wk cn (cn != t) ns e he
      refine ⟨h2, h3, h4, ?_, ns, rfl, n, hn, h5⟩
      intro hreq
      by_contra hnt
      apply hskip
      have hreq' : cr = tr := hreq
      have hnt' : ¬ cn = t := hnt
      simp [hreq', hnt']

/-- With nonempty node ids, a cluster's counters count exactly its successful
drain / un-drain events. -/
theorem processClusterDC_counts (wk : String → String → Bool) (t tr : String)
    (c : Cluster) (hid : ∀ ns, c.nodes = some ns → ∀ n ∈ ns, n.id ≠ "") :
    (processClusterDC wk t tr c).drained =
      ((processClusterDC wk t tr c).events.filter (fun e => e.ok && e.drain)).length ∧
    (processClusterDC wk t tr c).unDrained =
      ((processClusterDC wk t tr c).events.filter (fun e => e.ok && !e.drain)).length := by
  obtain ⟨cn, cr, cns⟩ := c
  by_cases hskip : (cr == tr && cn != t) = true
  · have h1 : processClusterDC wk t tr ⟨cn, cr, cns⟩ = ⟨⟨cn, cr, cns⟩, [], 0, 0, []⟩ := by
      rw [processClusterDC, if_pos hskip]
    simp [h1]
  · rcases cns with _ | ns
    · have h1 : processClusterDC wk t tr ⟨cn, cr, none⟩ =
          ⟨⟨cn, cr, none⟩, [], 0, 0, [.clusterFetch cn]⟩ := by
        rw [processClusterDC, if_neg hskip]
      simp [h1]
    · have h1 : processClusterDC wk t tr ⟨cn, cr, some ns⟩ =
          ⟨⟨cn, cr, some (processNodes wk cn (cn != t) ns).nodes⟩,
            (processNodes wk cn (cn != t) ns).events,
            (processNodes wk cn (cn != t) ns).drained,
            (processNodes wk cn (cn != t) ns).unDrained,
            (processNodes wk cn (cn != t) ns).errors⟩ := by
        rw [processClusterDC, if_neg hskip]
      rw [h1]
      exact processNodes_counts wk cn (cn != t) ns (hid ns rfl)

/-- The node-write entries of a cluster's errors are exactly its failed
events, in order. -/
theorem processClusterDC_errors_spec (wk : String → String → Bool) (t tr : String)
    (c : Cluster) :
    (processClusterDC wk t tr c).errors.filter isNodeWriteErr =
      ((processClusterDC wk t tr c).events.filter (fun e => !e.ok)).map
        (fun e => ErrEntry.nodeWrite e.cluster e.node) := by
  obtain ⟨cn, cr, cns⟩ := c
  by_cases hskip : (cr == tr && cn != t) = true
  · have h1 : processClusterDC wk t tr ⟨cn, cr, cns⟩ = ⟨⟨cn, cr, cns⟩, [], 0, 0, []⟩ := by
      rw [processClusterDC, if_pos hskip]
    simp [h1]
  · rcases cns with _ | ns
    · have h1 : processClusterDC wk t tr ⟨cn, cr, none⟩ =
          ⟨⟨cn, cr, none⟩, [], 0, 0, [.clusterFetch cn]⟩ := by
        rw [processClusterDC, if_neg hskip]
      simp [h1, isNodeWriteErr]
    · have h1 : processClusterDC wk t tr ⟨cn, cr, some ns⟩ =
          ⟨⟨cn, cr, some (processNodes wk cn (cn != t) ns).nodes⟩,
            (processNodes wk cn (cn != t) ns).events,
            (processNodes wk cn (cn != t) ns).drained,
            (processNodes wk cn (cn != t) ns).unDrained,
            (processNodes wk cn (cn != t) ns).errors⟩ := by
        rw [processClusterDC, if_neg hskip]
      rw [h1]
      show (processNodes wk cn (cn != t) ns).errors.filter isNodeWriteErr = _
      rw [processNodes_errors, List.filter_map]
      congr 1
      apply List.filter_eq_self.mpr
      intro a _
      simp [isNodeWriteErr, Function.comp]

/-- One processing pass reaches a fixpoint of the cluster state. -/
theorem processClusterDC_cluster_fixpoint (wk : String → String → Bool) (t tr : String)
    (c : Cluster) :
    (processClusterDC wk t tr ((processClusterDC wk t tr c).cluster)).cluster =
      (processClusterDC wk t tr c).cluster := by
  obtain ⟨cn, cr, cns⟩ := c
  by_cases hskip : (cr == tr && cn != t) = true
  · have h1 : processClusterDC wk t tr ⟨cn, cr, cns⟩ = ⟨⟨cn, cr, cns⟩, [], 0, 0, []⟩ := by
      rw [processClusterDC, if_pos hskip]
    simp [h1]
  · rcases cns with _ | ns
    · have h1 : processClusterDC wk t tr ⟨cn, cr, none⟩ =
          ⟨⟨cn, cr, none⟩, [], 0, 0, [.clusterFetch cn]⟩ := by
        rw [processClusterDC, if_neg hskip]
      simp [h1]
    · have h1 : processClusterDC wk t tr ⟨cn, cr, some ns⟩ =
          ⟨⟨cn, cr, some (processNodes wk cn (cn != t) ns).nodes⟩,
            (processNodes wk cn (cn != t) ns).events,
            (processNodes wk cn (cn != t) ns).drained,
            (processNodes wk cn (cn != t) ns).unDrained,
            (processNodes wk cn (cn != t) ns).errors⟩ := by
        rw [processClusterDC, if_neg hskip]
      have h2 : processClusterDC wk t tr ⟨cn, cr, some (processNodes wk cn (cn != t) ns).nodes⟩ =
          ⟨⟨cn, cr, some (processNodes wk cn (cn != t)
              (processNodes wk cn (cn != t) ns).nodes).nodes⟩,
            (processNodes wk cn (cn != t) (processNodes wk cn (cn != t) ns).nodes).events,
            (processNodes wk cn (cn != t) (processNodes wk cn (cn != t) ns).nodes).drained,
            (processNodes wk cn (cn != t) (processNodes wk cn (cn != t) ns).nodes).unDrained,
            (processNodes wk cn (cn != t) (processNodes wk cn (cn != t) ns).nodes).errors⟩ := by
        rw [processClusterDC, if_neg hskip]
      rw [h1]
      show (processClusterDC wk t tr ⟨cn, cr, some (processNodes wk cn (cn != t) ns).nodes⟩).cluster
        = (⟨cn, cr, some (processNodes wk cn (cn != t) ns).nodes⟩ : Cluster)
      rw [h2]
      show (⟨cn, cr, some (processNodes wk cn (cn != t)
          (processNodes wk cn (cn != t) ns).nodes).nodes⟩ : Cluster) = _
      rw [processNodes_nodes_fixpoint]

/-- When every event of a cluster's first processing pass succeeded, a second
pass leaves the cluster unchanged, issues no events, counts nothing, and
reproduces the same error list (which is then free of node-write entries). -/
theorem processClusterDC_second_run (wk : String → String → Bool) (t tr : String)
    (c : Cluster)
    (h : ∀ e ∈ (processClusterDC wk t tr c).events, e.ok = true) :
    processClusterDC wk t tr ((processClusterDC wk t tr c).cluster) =
      ⟨(processClusterDC wk t tr c).cluster, [], 0, 0,
        (processClusterDC wk t tr c).errors⟩ := by
  obtain ⟨cn, cr, cns⟩ := c
  by_cases hskip : (cr == tr && cn != t) = true
  · have h1 : processClusterDC wk t tr ⟨cn, cr, cns⟩ = ⟨⟨cn, cr, cns⟩, [], 0, 0, []⟩ := by
      rw [processClusterDC, if_pos hskip]
    simp [h1]
  · rcases cns with _ | ns
    · have h1 : processClusterDC wk t tr ⟨cn, cr, none⟩ =
          ⟨⟨cn, cr, none⟩, [], 0, 0, [.clusterFetch cn]⟩ := by
        rw [processClusterDC, if_neg hskip]
      simp [h1]
    · have h1 : processClusterDC wk t tr ⟨cn, cr, some ns⟩ =
          ⟨⟨cn, cr, some (processNodes wk cn (cn != t) ns).nodes⟩,
            (processNodes wk cn (cn != t) ns).events,
            (processNodes wk cn (cn != t) ns).drained,
            (processNodes wk cn (cn != t) ns).unDrained,
            (processNodes wk cn (cn != t) ns).errors⟩ := by
        rw [processClusterDC, if_neg hskip]
      rw [h1] at h
      have hok : ∀ e ∈ (processNodes wk cn (cn != t) ns).events, e.ok = true := h
      have hcorrect := processNodes_correct_of_ok wk cn (cn != t) ns hok
      have hfilter : (processNodes wk cn (cn != t) ns).events.filter (fun e => !e.ok) = [] := by
        apply List.filter_eq_nil_iff.mpr
        intro e he
        simp [hok e he]
      have herrs : (processNodes wk cn (cn != t) ns).errors = [] := by
        rw [processNodes_errors, hfilter]
        rfl
      have h2 : processClusterDC wk t tr ⟨cn, cr, some (processNodes wk cn (cn != t) ns).nodes⟩ =
          ⟨⟨cn, cr, some (processNodes wk cn (cn != t)
              (processNodes wk cn (cn != t) ns).nodes).nodes⟩,
            (processNodes wk cn (cn != t) (processNodes wk cn (cn != t) ns).nodes).events,
            (processNodes wk cn (cn != t) (processNodes wk cn (cn != t) ns).nodes).drained,
            (processNodes wk cn (cn != t) (processNodes wk cn (cn != t) ns).nodes).unDrained,
            (processNodes wk cn (cn != t) (processNodes wk cn (cn != t) ns).nodes).errors⟩ := by
        rw [processClusterDC, if_neg hskip]
      have h3 := processNodes_allCorrect wk cn (cn != t)
        (processNodes wk cn (cn != t) ns).nodes hcorrect
      rw [h1]
      show processClusterDC wk t tr ⟨cn, cr, some (processNodes wk cn (cn != t) ns).nodes⟩ = _
      rw [h2, h3]
      simp [herrs]

/-! ## World-level lemmas about `ActivateDatacenter` -/

/-- Cluster lookup commutes with a name-preserving per-cluster map. -/
theorem findCluster_map (f : Cluster → Cluster) (hf : ∀ c, (f c).name = c.name)
    (w : World) (nm : String) :
    findCluster (w.map f) nm = (findCluster w nm).map f := by
  induction w with
  | nil => rfl
  | cons c rest ih =>
    unfold findCluster at ih ⊢
    by_cases h : (c.name == nm) = true
    · have e1 : List.find? (fun x => x.name == nm) (f c :: List.map f rest) = some (f c) :=
        List.find?_cons_of_pos _ (by rw [hf]; exact h)
      have e2 : List.find? (fun x => x.name == nm) (c :: rest) = some c :=
        List.find?_cons_of_pos _ h
      rw [List.map_cons, e1, e2]
      rfl
    · have e1 : List.find? (fun x => x.name == nm) (f c :: List.map f rest) =
          List.find? (fun x => x.name == nm) (List.map f rest) :=
        List.find?_cons_of_neg _ (by rw [hf]; exact h)
      have e2 : List.find? (fun x => x.name == nm) (c :: rest) =
          List.find? (fun x => x.name == nm) rest :=
        List.find?_cons_of_neg _ h
      rw [List.map_cons, e1, e2]
      exact ih

/-- The sorted name list is invariant under a name-preserving map. -/
theorem getClusterNames_map (f : Cluster → Cluster) (hf : ∀ c, (f c).name = c.name)
    (w : World) : getClusterNames (w.map f) = getClusterNames w := by
  unfold getClusterNames
  congr 1
  rw [List.map_map]
  exact List.map_congr_left (fun c _ => hf c)

/-- The activation's cluster traversal commutes with a name-preserving map. -/
theorem activationClusters_map (f : Cluster → Cluster) (hf : ∀ c, (f c).name = c.name)
    (w : World) : activationClusters (w.map f) = (activationClusters w).map f := by
  unfold activationClusters
  rw [getClusterNames_map f hf]
  have hfc : (fun nm => findCluster (w.map f) nm) = fun nm => (findCluster w nm).map f :=
    funext (fun nm => findCluster_map f hf w nm)
  calc (getClusterNames w).filterMap (fun nm => findCluster (w.map f) nm)
      = (getClusterNames w).filterMap (fun nm => (findCluster w nm).map f) := by rw [hfc]
    _ = ((getClusterNames w).filterMap (findCluster w)).map f := by
        rw [List.map_filterMap]

/-- Every cluster the activation traversal visits is a configured cluster. -/
theorem mem_activationClusters (w : World) (c : Cluster)
    (h : c ∈ activationClusters w) : c ∈ w := by
  unfold activationClusters at h
  obtain ⟨nm, _, hfind⟩ := List.mem_filterMap.mp h
  exact List.mem_of_find?_eq_some hfind

/-- A cluster of a nodup-names world is returned by lookup under its own
name. -/
theorem findCluster_self (w : World) (C : Cluster) (h2 : C ∈ w)
    (h5 : (w.map (fun c => c.name)).Nodup) : findCluster w C.name = some C := by
  rcases hfc : findCluster w C.name with _ | c0
  · exfalso
    have := List.find?_eq_none.mp hfc C h2
    simp at this
  · have hp := List.find?_some hfc
    have hm := List.mem_of_find?_eq_some hfc
    have : c0 = C := List.inj_on_of_nodup_map h5 hm h2 (by simpa using hp)
    rw [this]

/-! ## Claim C4 -/

/-- Claim C4: a datacenter activation of target `T` issues no `SetNodeDrain`
call against a same-region sibling cluster `C ≠ T` and leaves `C`'s state
unchanged; clusters receiving drain requests all lie in other regions. -/
theorem activateDatacenter_preserves_siblings
    (wk : String → String → Bool) (evalOk etcdOk : Bool) (w : World)
    (target tr : String) (C : Cluster)
    (h1 : getClusterRegion w target = some tr)
    (h2 : C ∈ w) (h3 : C.region = tr) (h4 : C.name ≠ target)
    (h5 : (w.map (fun c => c.name)).Nodup) :
    (∀ e ∈ (activateDCCore wk evalOk etcdOk w target tr).events, e.cluster ≠ C.name) ∧
    findCluster (activateDCCore wk evalOk etcdOk w target tr).world C.name = some C ∧
    (∀ e ∈ (activateDCCore wk evalOk etcdOk w target tr).events, e.drain = true →
      ∃ c ∈ w, c.name = e.cluster ∧ c.region ≠ tr) := by
  have hevshape : (activateDCCore wk evalOk etcdOk w target tr).events =
      (((activationClusters w).map (processClusterDC wk target tr)).map
        (fun o => o.events)).flatten := rfl
  have hmem : ∀ e ∈ (activateDCCore wk evalOk etcdOk w target tr).events,
      ∃ c ∈ activationClusters w, e ∈ (processClusterDC wk target tr c).events := by
    intro e he
    rw [hevshape] at he
    obtain ⟨l, hl, hel⟩ := List.mem_flatten.mp he
    obtain ⟨o, ho, rfl⟩ := List.mem_map.mp hl
    obtain ⟨c, hc, rfl⟩ := List.mem_map.mp ho
    exact ⟨c, hc, hel⟩
  refine ⟨?_, ?_, ?_⟩
  · intro e he heq
    obtain ⟨c, hc, hec⟩ := hmem e he
    have hspec := processClusterDC_event_spec wk target tr c e hec
    have hcname : c.name = C.name := by rw [← hspec.1, heq]
    have hcw : c ∈ w := mem_activationClusters w c hc
    have : c = C := List.inj_on_of_nodup_map h5 hcw h2 hcname
    subst this
    rw [processClusterDC_skip wk target tr c h3 h4] at hec
    simp at hec
  · have hworld : (activateDCCore wk evalOk etcdOk w target tr).world =
        w.map (fun c => (processClusterDC wk target tr c).cluster) := rfl
    rw [hworld, findCluster_map _ (fun c => (processClusterDC_name_region wk target tr c).1),
      findCluster_self w C h2 h5]
    show some ((processClusterDC wk target tr C).cluster) = some C
    rw [processClusterDC_skip wk target tr C h3 h4]
  · intro e he hdr
    obtain ⟨c, hc, hec⟩ := hmem e he
    have hspec := processClusterDC_event_spec wk target tr c e hec
    refine ⟨c, mem_activationClusters w c hc, hspec.1.symm, ?_⟩
    intro hcr
    have hct : c.name = target := hspec.2.2.2.1 hcr
    have : e.drain = false := by
      rw [hspec.2.1, hct]
      simp
    rw [this] at hdr
    exact absurd hdr (by simp)

/-- A three-cluster world: target `a@r`, sibling `b@r`, cross-region `c@q`. -/
def wThree : World :=
  [⟨"a", "r", some [⟨"n1", "n1", false, "eligible", "ready"⟩]⟩,
   ⟨"b", "r", some [⟨"n2", "n2", false, "eligible", "ready"⟩]⟩,
   ⟨"c", "q", some [⟨"n3", "n3", false, "eligible", "ready"⟩]⟩]

/-- Witness for C4 at a concrete world: activating `a` leaves the same-region
sibling `b` untouched. -/
theorem activateDatacenter_preserves_siblings_witness :
    (∀ e ∈ (activateDCCore (fun _ _ => true) true true wThree "a" "r").events,
      e.cluster ≠ (⟨"b", "r", some [⟨"n2", "n2", false, "eligible", "ready"⟩]⟩ : Cluster).name) ∧
    findCluster (activateDCCore (fun _ _ => true) true true wThree "a" "r").world
      (⟨"b", "r", some [⟨"n2", "n2", false, "eligible", "ready"⟩]⟩ : Cluster).name =
      some ⟨"b", "r", some [⟨"n2", "n2", false, "eligible", "ready"⟩]⟩ ∧
    (∀ e ∈ (activateDCCore (fun _ _ => true) true true wThree "a" "r").events,
      e.drain = true → ∃ c ∈ wThree, c.name = e.cluster ∧ c.region ≠ "r") :=
  activateDatacenter_preserves_siblings (fun _ _ => true) true true wThree "a" "r"
    ⟨"b", "r", some [⟨"n2", "n2", false, "eligible", "ready"⟩]⟩
    (by decide) (by decide) rfl (by decide) (by decide)

/-! ## Claim C5 -/

/-- Claim C5: when a first `ActivateDatacenter` run had all its `SetNodeDrain`
writes succeed (with writes taking effect as `Drain = d`, eligibility
`"eligible"` iff `!d`), a second run on the resulting state issues no
node-state writes, returns `drained_nodes = 0` and `un_drained_nodes = 0`, and
leaves the node state unchanged. -/
theorem activateDatacenter_idempotent
    (wk : String → String → Bool) (evalOk etcdOk : Bool) (w : World) (target tr : String)
    (h1 : getClusterRegion w target = some tr)
    (h2 : ∀ e ∈ (activateDCCore wk evalOk etcdOk w target tr).events, e.ok = true) :
    ∃ out2, activateDatacenter wk evalOk etcdOk
        (activateDCCore wk evalOk etcdOk w target tr).world target = .ok out2 ∧
      out2.events = [] ∧ out2.result.drainedNodes = 0 ∧ out2.result.unDrainedNodes = 0 ∧
      out2.world = (activateDCCore wk evalOk etcdOk w target tr).world ∧
      out2.wroteActive = some target := by
  have hfname : ∀ c, ((fun c => (processClusterDC wk target tr c).cluster) c).name = c.name :=
    fun c => (processClusterDC_name_region wk target tr c).1
  have hfregion : ∀ c : Cluster, ((processClusterDC wk target tr c).cluster).region = c.region :=
    fun c => (processClusterDC_name_region wk target tr c).2
  have hreg : getClusterRegion
      (w.map (fun c => (processClusterDC wk target tr c).cluster)) target = some tr := by
    unfold getClusterRegion at h1 ⊢
    rw [findCluster_map _ hfname]
    rcases hfc : findCluster w target with _ | ct
    · rw [hfc] at h1
      simp at h1
    · have hct : ct.region = tr := by
        rw [hfc] at h1
        simpa using h1
      simp [hfregion ct, hct]
  have hok : ∀ c ∈ activationClusters w,
      ∀ e ∈ (processClusterDC wk target tr c).events, e.ok = true := by
    intro c hc e he
    apply h2
    show e ∈ (((activationClusters w).map (processClusterDC wk target tr)).map
      (fun o => o.events)).flatten
    apply List.mem_flatten.mpr
    refine ⟨(processClusterDC wk target tr c).events, ?_, he⟩
    exact List.mem_map.mpr ⟨processClusterDC wk target tr c,
      List.mem_map.mpr ⟨c, hc, rfl⟩, rfl⟩
  have houts : ((activationClusters
        (w.map (fun c => (processClusterDC wk target tr c).cluster))).map
        (processClusterDC wk target tr)) =
      (activationClusters w).map (fun c =>
        (⟨(processClusterDC wk target tr c).cluster, [], 0, 0,
          (processClusterDC wk target tr c).errors⟩ : ClusterOutcome)) := by
    rw [activationClusters_map _ hfname, List.map_map]
    apply List.map_congr_left
    intro c hc
    exact processClusterDC_second_run wk target tr c (hok c hc)
  have hev2 : (activateDCCore wk evalOk etcdOk
      (w.map (fun c => (processClusterDC wk target tr c).cluster)) target tr).events = [] := by
    show (((activationClusters
        (w.map (fun c => (processClusterDC wk target tr c).cluster))).map
        (processClusterDC wk target tr)).map (fun o => o.events)).flatten = []
    rw [houts, List.map_map]
    apply List.flatten_eq_nil_iff.mpr
    intro l hl
    obtain ⟨c, hc, rfl⟩ := List.mem_map.mp hl
    rfl
  have hdr2 : (activateDCCore wk evalOk etcdOk
      (w.map (fun c => (processClusterDC wk target tr c).cluster))
      target tr).result.drainedNodes = 0 := by
    show (((activationClusters
        (w.map (fun c => (processClusterDC wk target tr c).cluster))).map
        (processClusterDC wk target tr)).map (fun o => o.drained)).sum = 0
    rw [houts, List.map_map]
    apply List.sum_eq_zero_iff.mpr
    intro x hx
    obtain ⟨c, hc, rfl⟩ := List.mem_map.mp hx
    rfl
  have hun2 : (activateDCCore wk evalOk etcdOk
      (w.map (fun c => (processClusterDC wk target tr c).cluster))
      target tr).result.unDrainedNodes = 0 := by
    show (((activationClusters
        (w.map (fun c => (processClusterDC wk target tr c).cluster))).map
        (processClusterDC wk target tr)).map (fun o => o.unDrained)).sum = 0
    rw [houts, List.map_map]
    apply List.sum_eq_zero_iff.mpr
    intro x hx
    obtain ⟨c, hc, rfl⟩ := List.mem_map.mp hx
    rfl
  have hworld2 : (activateDCCore wk evalOk etcdOk
      (w.map (fun c => (processClusterDC wk target tr c).cluster)) target tr).world =
      w.map (fun c => (processClusterDC wk target tr c).cluster) := by
    show (w.map (fun c => (processClusterDC wk target tr c).cluster)).map
        (fun c => (processClusterDC wk target tr c).cluster) =
      w.map (fun c => (processClusterDC wk target tr c).cluster)
    rw [List.map_map]
    apply List.map_congr_left
    intro c _
    exact processClusterDC_cluster_fixpoint wk target tr c
  refine ⟨activateDCCore wk evalOk etcdOk
      (w.map (fun c => (processClusterDC wk target tr c).cluster)) target tr,
    ?_, hev2, hdr2, hun2, hworld2, rfl⟩
  show activateDatacenter wk evalOk etcdOk
      (w.map (fun c => (processClusterDC wk target tr c).cluster)) target = _
  rw [activateDatacenter, hreg]

/-- A one-cluster world whose only node needs un-draining. -/
def wDrained : World := [⟨"dc1", "r1", some [⟨"n1", "n1", true, "ineligible", "ready"⟩]⟩]

/-- Witness for C5 at a concrete world where the first run really writes. -/
theorem activateDatacenter_idempotent_witness :
    ∃ out2, activateDatacenter (fun _ _ => true) true true
        (activateDCCore (fun _ _ => true) true true wDrained "dc1" "r1").world "dc1" =
      .ok out2 ∧
      out2.events = [] ∧ out2.result.drainedNodes = 0 ∧ out2.result.unDrainedNodes = 0 ∧
      out2.world = (activateDCCore (fun _ _ => true) true true wDrained "dc1" "r1").world ∧
      out2.wroteActive = some "dc1" :=
  activateDatacenter_idempotent (fun _ _ => true) true true wDrained "dc1" "r1"
    (by decide) (by decide)

/-! ## Claim C6 -/

/-- Every event of an activation comes from the processing of some visited
cluster. -/
theorem activateDCCore_event_mem (wk : String → String → Bool) (evalOk etcdOk : Bool)
    (w : World) (target tr : String) :
    ∀ e ∈ (activateDCCore wk evalOk etcdOk w target tr).events,
      ∃ c ∈ activationClusters w, e ∈ (processClusterDC wk target tr c).events := by
  intro e he
  have he' : e ∈ (((activationClusters w).map (processClusterDC wk target tr)).map
      (fun o => o.events)).flatten := he
  obtain ⟨l, hl, hel⟩ := List.mem_flatten.mp he'
  obtain ⟨o, ho, rfl⟩ := List.mem_map.mp hl
  obtain ⟨c, hc, rfl⟩ := List.mem_map.mp ho
  exact ⟨c, hc, hel⟩

/-- The trailing job-evaluation / etcd error entries do not affect the
node-write entries of the error list. -/
theorem filter_isNodeWriteErr_appends (E0 : List ErrEntry) (evB etB : Bool)
    (ud : Nat) (t : String) :
    (if etB = true
      then (if 0 < ud then (if evB = true then E0 else E0 ++ [ErrEntry.evalFail t]) else E0)
      else (if 0 < ud then (if evB = true then E0 else E0 ++ [ErrEntry.evalFail t]) else E0)
        ++ [ErrEntry.etcdFail]).filter isNodeWriteErr = E0.filter isNodeWriteErr := by
  split_ifs <;> simp [List.filter_append, isNodeWriteErr]

/-- Claim C6: in an activation with nonempty node ids, the `drained_nodes` and
`un_drained_nodes` counters count exactly the successful `SetNodeDrain` writes
of each direction; the node-write entries of `errors` are exactly the failed
writes, in order; and every attempted write targets a fetched node that was
not already in the desired state (already-correct nodes are skipped). -/
theorem activateDatacenter_counters_exact
    (wk : String → String → Bool) (evalOk etcdOk : Bool) (w : World) (target tr : String)
    (h1 : getClusterRegion w target = some tr)
    (hid : ∀ c ∈ w, ∀ ns, c.nodes = some ns → ∀ n ∈ ns, n.id ≠ "") :
    (activateDCCore wk evalOk etcdOk w target tr).result.drainedNodes =
      ((activateDCCore wk evalOk etcdOk w target tr).events.filter
        (fun e => e.ok && e.drain)).length ∧
    (activateDCCore wk evalOk etcdOk w target tr).result.unDrainedNodes =
      ((activateDCCore wk evalOk etcdOk w target tr).events.filter
        (fun e => e.ok && !e.drain)).length ∧
    (activateDCCore wk evalOk etcdOk w target tr).result.errors.filter isNodeWriteErr =
      ((activateDCCore wk evalOk etcdOk w target tr).events.filter
        (fun e => !e.ok)).map (fun e => ErrEntry.nodeWrite e.cluster e.node) ∧
    ∀ e ∈ (activateDCCore wk evalOk etcdOk w target tr).events,
      ∃ c ∈ w, c.name = e.cluster ∧ e.drain = (c.name != target) ∧
        ∃ ns, c.nodes = some ns ∧ ∃ n ∈ ns, n.id = e.node ∧
          alreadyCorrect (c.name != target) n = false := by
  have hidc : ∀ c ∈ activationClusters w, ∀ ns, c.nodes = some ns →
      ∀ n ∈ ns, n.id ≠ "" :=
    fun c hc => hid c (mem_activationClusters w c hc)
  refine ⟨?_, ?_, ?_, ?_⟩
  · show (((activationClusters w).map (processClusterDC wk target tr)).map
        (fun o => o.drained)).sum =
      ((((activationClusters w).map (processClusterDC wk target tr)).map
        (fun o => o.events)).flatten.filter (fun e => e.ok && e.drain)).length
    rw [List.filter_flatten, List.length_flatten]
    simp only [List.map_map]
    congr 1
    apply List.map_congr_left
    intro c hc
    exact (processClusterDC_counts wk target tr c (hidc c hc)).1
  · show (((activationClusters w).map (processClusterDC wk target tr)).map
        (fun o => o.unDrained)).sum =
      ((((activationClusters w).map (processClusterDC wk target tr)).map
        (fun o => o.events)).flatten.filter (fun e => e.ok && !e.drain)).length
    rw [List.filter_flatten, List.length_flatten]
    simp only [List.map_map]
    congr 1
    apply List.map_congr_left
    intro c hc
    exact (processClusterDC_counts wk target tr c (hidc c hc)).2
  · have herrs0 : ((((activationClusters w).map (processClusterDC wk target tr)).map
        (fun o => o.errors)).flatten).filter isNodeWriteErr =
        (((((activationClusters w).map (processClusterDC wk target tr)).map
          (fun o => o.events)).flatten).filter (fun e => !e.ok)).map
          (fun e => ErrEntry.nodeWrite e.cluster e.node) := by
      rw [List.filter_flatten, List.filter_flatten, List.map_flatten]
      simp only [List.map_map]
      congr 1
      apply List.map_congr_left
      intro c hc
      exact processClusterDC_errors_spec wk target tr c
    have hcerr : (activateDCCore wk evalOk etcdOk w target tr).result.errors =
        (if etcdOk = true
          then (if 0 < (((activationClusters w).map (processClusterDC wk target tr)).map
              (fun o => o.unDrained)).sum
            then (if evalOk = true
              then (((activationClusters w).map (processClusterDC wk target tr)).map
                (fun o => o.errors)).flatten
              else (((activationClusters w).map (processClusterDC wk target tr)).map
                (fun o => o.errors)).flatten ++ [ErrEntry.evalFail target])
            else (((activationClusters w).map (processClusterDC wk target tr)).map
              (fun o => o.errors)).flatten)
          else (if 0 < (((activationClusters w).map (processClusterDC wk target tr)).map
              (fun o => o.unDrained)).sum
            then (if evalOk = true
              then (((activationClusters w).map (processClusterDC wk target tr)).map
                (fun o => o.errors)).flatten
              else (((activationClusters w).map (processClusterDC wk target tr)).map
                (fun o => o.errors)).flatten ++ [ErrEntry.evalFail target])
            else (((activationClusters w).map (processClusterDC wk target tr)).map
              (fun o => o.errors)).flatten) ++ [ErrEntry.etcdFail]) := rfl
    rw [hcerr, filter_isNodeWriteErr_appends]
    exact herrs0
  · intro e he
    obtain ⟨c, hc, hec⟩ :=
      activateDCCore_event_mem wk evalOk etcdOk w target tr e he
    have hspec := processClusterDC_event_spec wk target tr c e hec
    obtain ⟨ns, hns, n, hn, hcor⟩ := hspec.2.2.2.2
    exact ⟨c, mem_activationClusters w c hc, hspec.1.symm, hspec.2.1,
      ns, hns, n, hn, hcor⟩

/-- Witness for C6 at a concrete world. -/
theorem activateDatacenter_counters_exact_witness :
    (activateDCCore (fun _ _ => true) true true wDrained "dc1" "r1").result.drainedNodes =
      ((activateDCCore (fun _ _ => true) true true wDrained "dc1" "r1").events.filter
        (fun e => e.ok && e.drain)).length ∧
    (activateDCCore (fun _ _ => true) true true wDrained "dc1" "r1").result.unDrainedNodes =
      ((activateDCCore (fun _ _ => true) true true wDrained "dc1" "r1").events.filter
        (fun e => e.ok && !e.drain)).length ∧
    (activateDCCore (fun _ _ => true) true true wDrained "dc1" "r1").result.errors.filter
        isNodeWriteErr =
      ((activateDCCore (fun _ _ => true) true true wDrained "dc1" "r1").events.filter
        (fun e => !e.ok)).map (fun e => ErrEntry.nodeWrite e.cluster e.node) ∧
    ∀ e ∈ (activateDCCore (fun _ _ => true) true true wDrained "dc1" "r1").events,
      ∃ c ∈ wDrained, c.name = e.cluster ∧ e.drain = (c.name != "dc1") ∧
        ∃ ns, c.nodes = some ns ∧ ∃ n ∈ ns, n.id = e.node ∧
          alreadyCorrect (c.name != "dc1") n = false :=
  activateDatacenter_counters_exact (fun _ _ => true) true true wDrained "dc1" "r1"
    (by decide) (by decide)

end DCSwitcher
